import Mathlib

/-
  Shallow embedding of the PearDriveCore node (peer-to-peer file
  synchronization).  The definitions below are translated from the
  JavaScript source of the repository:

  * `src/src/utils/bufferToStr.js`   — `asDrivePath`
  * `src/src/LocalFileIndex.js`      — `#updateFile`, `#pollAndSync`,
                                       `#scanDirectory`, `#isBusy`
  * `src/src/IndexManager.js`        — `#onPeerUpdate`, `markTransfer`,
                                       `unmarkTransfer`, `createUploadBlob`,
                                       `handleDownload`, `_executeDownloadBlob`,
                                       `_relayDownload`, `queueDownload`
  * the node class (`PearDrive`)     — `downloadFileFromPeer`, `_onMessage`,
                                       `_onFileRequest`, `joinNetwork`,
                                       `activateRelay`, `deactivateRelay`,
                                       `#buildSaveData`, `#emitSaveDataUpdate`

  JavaScript strings are modelled as Lean `String`; JavaScript `Map`/object
  tables are modelled as association lists with first-match lookup (a JS
  object has at most one entry per key, which the helpers below preserve);
  asynchronous effects are modelled by passing each awaited outcome in as an
  explicit `Except` argument and by returning event/action traces.
-/

namespace PearDriveCore

/-! ## Path utilities (src/src/utils) -/

/-- JavaScript `str.startsWith("/")`: true exactly when the first character
of the string is a slash. -/
def jsStartsWithSlash (s : String) : Bool :=
  s.data.head? == some '/'

/-- translation of `asDrivePath` (src/src/utils/bufferToStr.js, also shipped
as its own module): prepend a slash unless the string already starts with
one.  Drive paths are the keys of the transfer, upload, download and
queued-download tables. -/
def asDrivePath (s : String) : String :=
  if jsStartsWithSlash s then s else "/" ++ s

/-! ## Message status constants (src/src/constants.js, MESSAGE_STATUS) -/

/-- response status "success". -/
def SUCCESS : String := "success"

/-- response status "error". -/
def ERROR : String := "error"

/-- response status "unknown_message_type". -/
def UNKNOWN_MESSAGE_TYPE : String := "unknown_message_type"

/-! ## File records -/

/-- a file record as stored in a local or remote index log (`path`, `size`,
`modified`, `hash`); `modified` is the mtime in milliseconds, used only for
equality comparison, so a `Nat` stands in for the JS number. -/
structure FileMeta where
  path : String
  size : Nat
  modified : Nat
  hash : String
deriving DecidableEq, Repr

/-- the size/mtime pair `fs.statSync` reports for a file. -/
structure FileStat where
  size : Nat
  mtimeMs : Nat
deriving DecidableEq, Repr

/-! ## Local file index: `#updateFile` (src/src/LocalFileIndex.js 544-638) -/

/-- events the LocalFileIndex emits (LFI_EVENT in constants.js). -/
inductive LfiEvent where
  | fileAdded (path hash : String)
  | fileChanged (path prevHash hash : String)
  | fileRemoved (path : String)
deriving DecidableEq, Repr

/-- result of one `#updateFile` call: whether `#hashFile` ran, the record
written to the bee (kept in the metadata cache as well), and the events
emitted. -/
structure UpdateFileResult where
  hashed : Bool
  put : Option FileMeta
  events : List LfiEvent
deriving DecidableEq, Repr

/-- translation of `LocalFileIndex#updateFile`.  `busy` is the result of
`#isBusy(relativePath)`, `cached` the metadata-cache entry, `stat` the fresh
`fs.statSync` result and `newHash` the value `#hashFile` would return if the
file were hashed.  A busy file is skipped.  For a cached path whose size and
mtime both equal the cache, nothing happens (no hash, no write, no event);
otherwise the file is rehashed, the new record is written, and FILE_CHANGED
fires only when the new hash differs from the cached hash.  An uncached path
is hashed, written, and FILE_ADDED fires. -/
def updateFile (busy : Bool) (cached : Option FileMeta) (relativePath : String)
    (stat : FileStat) (newHash : String) : UpdateFileResult :=
  if busy then { hashed := false, put := none, events := [] }
  else
    match cached with
    | some c =>
      if c.size = stat.size ∧ c.modified = stat.mtimeMs then
        { hashed := false, put := none, events := [] }
      else
        let meta : FileMeta :=
          { path := relativePath, size := stat.size,
            modified := stat.mtimeMs, hash := newHash }
        { hashed := true, put := some meta,
          events :=
            if newHash = c.hash then []
            else [LfiEvent.fileChanged relativePath c.hash newHash] }
    | none =>
      let meta : FileMeta :=
        { path := relativePath, size := stat.size,
          modified := stat.mtimeMs, hash := newHash }
      { hashed := true, put := some meta,
        events := [LfiEvent.fileAdded relativePath newHash] }

/-! ## Local file index: polling (src/src/LocalFileIndex.js 268-376) -/

/-- a regular file as the recursive directory walk encounters it:
its relative path, its stat data, and the SHA-256 of its bytes
(what `#hashFile` returns). -/
structure DiskFile where
  path : String
  size : Nat
  mtimeMs : Nat
  contentHash : String
deriving DecidableEq, Repr

/-- translation of `LocalFileIndex#isBusy`: the drive path is a key of the
uploads table or of the downloads table.  The two tables are modelled by
their key sets. -/
def isBusy (uploads downloads : List String) (path : String) : Bool :=
  uploads.contains (asDrivePath path) || downloads.contains (asDrivePath path)

/-- first-match lookup in an association list of file records (Map
semantics). -/
def lookupMeta (m : List (String × FileMeta)) (p : String) : Option FileMeta :=
  (m.find? fun e => e.1 = p).map (·.2)

/-- translation of `LocalFileIndex#scanDirectory` over a flat listing of the
regular files below the watch path: busy files are skipped (and in
particular never hashed), every other file is hashed and recorded. -/
def scanDirectory (uploads downloads : List String) (disk : List DiskFile) :
    List (String × FileMeta) :=
  disk.filterMap fun f =>
    if isBusy uploads downloads f.path then none
    else some (f.path,
      { path := f.path, size := f.size, modified := f.mtimeMs,
        hash := f.contentHash })

/-- the set of paths `#scanDirectory` hashes: exactly the non-busy files of
the listing (`#hashFile` is called right after the busy check). -/
def scannedHashedPaths (uploads downloads : List String) (disk : List DiskFile) :
    List String :=
  disk.filterMap fun f =>
    if isBusy uploads downloads f.path then none else some f.path

/-- a write to the index bee: `put` or `del`. -/
inductive BeeOp where
  | put (path : String) (meta : FileMeta)
  | del (path : String)
deriving DecidableEq, Repr

/-- the path a bee operation addresses. -/
def beeOpPath : BeeOp → String
  | .put p _ => p
  | .del p => p

/-- translation of the synchronisation body of `LocalFileIndex#pollAndSync`:
first the deletion pass (every stored path the scan did not see is deleted
unless busy), then the put pass (every scanned file that is new or whose
hash differs from the stored record is written). -/
def pollAndSync (uploads downloads : List String)
    (stored : List (String × FileMeta)) (disk : List DiskFile) : List BeeOp :=
  let current := scanDirectory uploads downloads disk
  let dels := stored.filterMap fun e =>
    if (lookupMeta current e.1).isNone then
      if isBusy uploads downloads e.1 then none else some (BeeOp.del e.1)
    else none
  let puts := current.filterMap fun e =>
    match lookupMeta stored e.1 with
    | none => some (BeeOp.put e.1 e.2)
    | some m => if m.hash = e.2.hash then none else some (BeeOp.put e.1 e.2)
  dels ++ puts

/-- apply one bee operation to the bee viewed as a map. -/
def applyBeeOp (m : String → Option FileMeta) : BeeOp → (String → Option FileMeta)
  | .put p v => fun q => if q = p then some v else m q
  | .del p => fun q => if q = p then none else m q

/-- apply a list of bee operations in order. -/
def applyBeeOps (m : String → Option FileMeta) : List BeeOp → (String → Option FileMeta)
  | [] => m
  | op :: rest => applyBeeOps (applyBeeOp m op) rest

/-- the index bee after one poll, as a map from path to record. -/
def beeAfterPoll (uploads downloads : List String)
    (stored : List (String × FileMeta)) (disk : List DiskFile) :
    String → Option FileMeta :=
  applyBeeOps (fun q => lookupMeta stored q)
    (pollAndSync uploads downloads stored disk)

/-! ## Download execution (src/src/IndexManager.js `_executeDownloadBlob`) -/

/-- a Hyperblobs blob locator, the `id` a blob write stream reports:
`byteLength` is the declared total size of the blob. -/
structure BlobId where
  byteOffset : Nat
  blockOffset : Nat
  blockLength : Nat
  byteLength : Nat
deriving DecidableEq, Repr

/-- running total of the `rs.on("data")` handler: `downloadedBytes` starts
at zero and each chunk adds its length. -/
def downloadedBytes (chunks : List Nat) : Nat :=
  chunks.foldl (· + ·) 0

/-- how `_executeDownloadBlob` settles when the write stream closes. -/
inductive DownloadSettle where
  | completed (bytes : Nat)
  | incomplete (bytes total : Nat)
deriving DecidableEq, Repr

/-- translation of the `ws.once("close")` handler of `_executeDownloadBlob`:
reject with an incomplete-download error when the byte count differs from
the declared blob size `id.byteLength`, resolve otherwise.  `chunks` are the
lengths of the data chunks observed before the close. -/
def executeDownloadOnClose (chunks : List Nat) (id : BlobId) : DownloadSettle :=
  if downloadedBytes chunks ≠ id.byteLength then
    .incomplete (downloadedBytes chunks) id.byteLength
  else .completed (downloadedBytes chunks)

/-! ## Upload preparation and FILE_REQUEST (IndexManager.createUploadBlob,
node `_onFileRequest`) -/

/-- the Hyperblobs transfer reference `{ type, key, id }` returned by
`createUploadBlob` and consumed by `handleDownload`. -/
structure BlobRef where
  type : String
  key : String
  id : BlobId
deriving DecidableEq, Repr

/-- payload of a response envelope: a JSON string, a blob reference, or
null. -/
inductive RespData where
  | text (s : String)
  | blob (r : BlobRef)
  | null
deriving DecidableEq, Repr

/-- the `{ status, data }` envelope every protocol responder returns. -/
structure Response where
  status : String
  data : RespData
deriving DecidableEq, Repr

/-- translation of `IndexManager.createUploadBlob`: fail unless the path is
present in the local index (`localIndex.getFileMetadata`); otherwise the
file bytes are streamed onto a dedicated single-blob core and the reference
`{ type := "hyperblobs", key, id }` is returned, where `coreKeyHex` is the
hex public key of that dedicated core and `blobId` the locator its write
stream reports. -/
def createUploadBlob (localIndex : String → Option FileMeta)
    (coreKeyHex : String) (blobId : BlobId) (filePath : String) :
    Except String BlobRef :=
  match localIndex filePath with
  | none => .error ("File not found in local index: " ++ filePath)
  | some _ => .ok { type := "hyperblobs", key := coreKeyHex, id := blobId }

/-- translation of the node responder `_onFileRequest`: a missing or empty
payload is invalid (JS falsiness); otherwise the upload is marked and
`createUploadBlob` runs; its success value becomes the success data, any
thrown error becomes an ERROR envelope.  The Bool records whether
`markTransfer` ran. -/
def onFileRequest (localIndex : String → Option FileMeta)
    (coreKeyHex : String) (blobId : BlobId) (payload : Option String) :
    Response × Bool :=
  match payload with
  | none =>
    ({ status := ERROR,
       data :=
        .text "Error handling file request: Invalid file path in FILE_REQUEST" },
     false)
  | some p =>
    if p = "" then
      ({ status := ERROR,
         data :=
          .text "Error handling file request: Invalid file path in FILE_REQUEST" },
       false)
    else
      match createUploadBlob localIndex coreKeyHex blobId p with
      | .ok ref => ({ status := SUCCESS, data := .blob ref }, true)
      | .error msg =>
        ({ status := ERROR,
           data := .text ("Error handling file request: " ++ msg) }, true)

/-! ## Custom message dispatch (node `listen` / `listenOnce` / `_onMessage`) -/

/-- a hook table `map<string, handler>`; handlers are named by `Nat` ids and
interpreted by an explicit environment, so that invocations can be traced. -/
abbrev HookMap := List (String × Nat)

/-- JS object property read: first-match lookup. -/
def lookupHook (m : HookMap) (t : String) : Option Nat :=
  (m.find? fun e => e.1 = t).map (·.2)

/-- JS object property write `hooks[name] = cb` (at most one entry per
key). -/
def setHook (m : HookMap) (t : String) (id : Nat) : HookMap :=
  (t, id) :: m.filter fun e => ¬ e.1 = t

/-- JS `delete hooks[name]`. -/
def deleteHook (m : HookMap) (t : String) : HookMap :=
  m.filter fun e => ¬ e.1 = t

/-- the two hook tables of the node: `_onceCustomMessageHooks` and
`_customMessageHooks`. -/
structure Hooks where
  once : HookMap
  regular : HookMap
deriving DecidableEq, Repr

/-- translation of `listen(name, cb)`. -/
def listen (h : Hooks) (t : String) (id : Nat) : Hooks :=
  { h with regular := setHook h.regular t id }

/-- translation of `listenOnce(name, cb)`. -/
def listenOnce (h : Hooks) (t : String) (id : Nat) : Hooks :=
  { h with once := setHook h.once t id }

/-- translation of `unlisten(name)`. -/
def unlisten (h : Hooks) (t : String) : Hooks :=
  { h with regular := deleteHook h.regular t }

/-- result of `_onMessage`: the updated hook tables, the response envelope,
and the trace of handler invocations (handler id with the payload it was
applied to). -/
structure MsgResult where
  hooks : Hooks
  response : Response
  calls : List (Nat × String)
deriving DecidableEq, Repr

/-- translation of the node responder `_onMessage` for a well-formed
`{ type, payload }` message.  `interp` gives each handler id its behaviour
(`.ok` a result, `.error` a thrown exception).  A once-hook takes
precedence and is deleted from its table before it is invoked; with no
once-hook the regular hook runs; with neither the envelope status is
UNKNOWN_MESSAGE_TYPE and no handler is invoked. -/
def onMessage (interp : Nat → String → Except String String) (h : Hooks)
    (t payload : String) : MsgResult :=
  match lookupHook h.once t with
  | some id =>
    let h1 : Hooks := { h with once := deleteHook h.once t }
    match interp id payload with
    | .error _ =>
      { hooks := h1,
        response :=
          { status := ERROR,
            data := .text ("Error handling one-time message of type " ++ t) },
        calls := [(id, payload)] }
    | .ok r =>
      { hooks := h1,
        response := { status := SUCCESS, data := .text r },
        calls := [(id, payload)] }
  | none =>
    match lookupHook h.regular t with
    | none =>
      { hooks := h,
        response :=
          { status := UNKNOWN_MESSAGE_TYPE,
            data := .text ("No handler for type " ++ t) },
        calls := [] }
    | some id =>
      match interp id payload with
      | .error _ =>
        { hooks := h,
          response :=
            { status := ERROR,
              data := .text ("Error handling message of type " ++ t) },
          calls := [(id, payload)] }
      | .ok r =>
        { hooks := h,
          response := { status := SUCCESS, data := .text r },
          calls := [(id, payload)] }

/-! ## Transfer table (src/src/IndexManager.js `markTransfer` /
`unmarkTransfer` and the busy queries) -/

/-- direction of a transfer. -/
inductive TransferDirection where
  | upload
  | download
deriving DecidableEq, Repr

/-- one `_inProgress[pathKey][peerId]` entry. -/
structure TransferEntry where
  direction : TransferDirection
  startedAt : Nat
deriving DecidableEq, Repr

/-- the per-path level of the `_inProgress` table: peer id to entry. -/
abbrev PeerEntries := List (String × TransferEntry)

/-- the `_inProgress` transfer table: drive path to per-peer entries. -/
abbrev InProgress := List (String × PeerEntries)

/-- read `_inProgress[pathKey]`. -/
def getPeers (ip : InProgress) (pathKey : String) : Option PeerEntries :=
  (ip.find? fun e => e.1 = pathKey).map (·.2)

/-- write `_inProgress[pathKey] = pe`. -/
def setPeers (ip : InProgress) (pathKey : String) (pe : PeerEntries) : InProgress :=
  (pathKey, pe) :: ip.filter fun e => ¬ e.1 = pathKey

/-- JS `delete _inProgress[pathKey]`. -/
def delPeers (ip : InProgress) (pathKey : String) : InProgress :=
  ip.filter fun e => ¬ e.1 = pathKey

/-- read a per-peer entry. -/
def getEntry (pe : PeerEntries) (peer : String) : Option TransferEntry :=
  (pe.find? fun e => e.1 = peer).map (·.2)

/-- write a per-peer entry. -/
def setEntry (pe : PeerEntries) (peer : String) (t : TransferEntry) : PeerEntries :=
  (peer, t) :: pe.filter fun e => ¬ e.1 = peer

/-- JS `delete _inProgress[pathKey][peer]`. -/
def delEntry (pe : PeerEntries) (peer : String) : PeerEntries :=
  pe.filter fun e => ¬ e.1 = peer

/-- lifecycle events the IndexManager emits on mark/unmark (IM_EVENT). -/
inductive ImLifeEvent where
  | inProgressDownloadStarted (path peer : String)
  | inProgressDownloadCompleted (path peer : String)
deriving DecidableEq, Repr

/-- translation of `IndexManager.markTransfer`: key the table by the drive
path; a duplicate (same path and peer) is refused with no event; otherwise
the entry `{ direction, startedAt }` is stored and
IN_PROGRESS_DOWNLOAD_STARTED is emitted (for either direction). -/
def markTransfer (ip : InProgress) (path : String) (dir : TransferDirection)
    (peer : String) (now : Nat) : InProgress × List ImLifeEvent :=
  let pathKey := asDrivePath path
  match getPeers ip pathKey with
  | some pe =>
    if (getEntry pe peer).isSome then (ip, [])
    else
      (setPeers ip pathKey (setEntry pe peer { direction := dir, startedAt := now }),
       [.inProgressDownloadStarted path peer])
  | none =>
    (setPeers ip pathKey (setEntry [] peer { direction := dir, startedAt := now }),
     [.inProgressDownloadStarted path peer])

/-- the IndexManager state the transfer subsystem mutates: the `_inProgress`
table and the key sets of the `_uploads` and `_downloads` blob maps. -/
structure TransferState where
  inProgress : InProgress
  uploads : List String
  downloads : List String
deriving DecidableEq, Repr

/-- translation of `IndexManager.hasActiveDownloads`. -/
def hasActiveDownloads (ip : InProgress) (path : String) : Bool :=
  match getPeers ip (asDrivePath path) with
  | none => false
  | some pe => pe.any fun e => e.2.direction = TransferDirection.download

/-- translation of `IndexManager.hasActiveTransfers`: the path entry exists
and is non-empty. -/
def hasActiveTransfers (ip : InProgress) (path : String) : Bool :=
  match getPeers ip (asDrivePath path) with
  | none => false
  | some pe => ¬ pe.isEmpty

/-- translation of `IndexManager.unmarkTransfer`: with no entry for the
path nothing happens; otherwise the peer entry is deleted,
IN_PROGRESS_DOWNLOAD_COMPLETED fires when the direction is download, and
when no per-peer entry remains the path entry is removed and the matching
blob (downloads or uploads key, per direction) is force-closed, which in
all code paths ends by deleting the blob map entry. -/
def unmarkTransfer (st : TransferState) (path : String)
    (dir : TransferDirection) (peer : String) : TransferState × List ImLifeEvent :=
  let pathKey := asDrivePath path
  match getPeers st.inProgress pathKey with
  | none => (st, [])
  | some pe =>
    let pe1 := delEntry pe peer
    let evs : List ImLifeEvent :=
      if dir = TransferDirection.download then
        [.inProgressDownloadCompleted path peer]
      else []
    if pe1.isEmpty then
      let ip1 := delPeers st.inProgress pathKey
      match dir with
      | .download =>
        ({ inProgress := ip1, uploads := st.uploads,
           downloads := st.downloads.filter fun q => ¬ q = pathKey }, evs)
      | .upload =>
        ({ inProgress := ip1,
           uploads := st.uploads.filter fun q => ¬ q = pathKey,
           downloads := st.downloads }, evs)
    else
      ({ st with inProgress := setPeers st.inProgress pathKey pe1 }, evs)

/-! ## Download orchestration (IndexManager `handleDownload`,
`_relayDownload`; node `downloadFileFromPeer`) -/

deriving instance DecidableEq for Except

/-- translation of `_createDownloadBlob`: registers the drive path in the
`_downloads` map (the Hyperblobs read side is created under it). -/
def createDownloadBlob (st : TransferState) (path : String) : TransferState :=
  { st with
    downloads :=
      asDrivePath path :: st.downloads.filter fun q => ¬ q = asDrivePath path }

/-- outcome of `handleDownload`: the updated state, the lifecycle events,
and the promise settlement — `.ok none` models resolving with `undefined`,
`.ok (some b)` resolving with the boolean `b`, `.error` a rejection. -/
structure HandleDownloadResult where
  st : TransferState
  events : List ImLifeEvent
  result : Except String (Option Bool)
deriving DecidableEq, Repr

/-- translation of `IndexManager.handleDownload`: a reference whose `type`
is not "hyperblobs" is rejected (throw); otherwise the transfer is marked,
the download blob is created and the stream is executed, the outcomes of
those two awaited steps being passed in as `createOk` and `execOk`.  Any
step failure is caught and the promise resolves `false`; on success the
function falls through and resolves `undefined`. -/
def handleDownload (st : TransferState) (peerId path : String) (ref : BlobRef)
    (now : Nat) (createOk execOk : Except String Unit) : HandleDownloadResult :=
  if ref.type = "hyperblobs" then
    let m := markTransfer st.inProgress path .download peerId now
    let st1 : TransferState := { st with inProgress := m.1 }
    match createOk with
    | .error _ => { st := st1, events := m.2, result := .ok (some false) }
    | .ok _ =>
      let st2 := createDownloadBlob st1 path
      match execOk with
      | .error _ => { st := st2, events := m.2, result := .ok (some false) }
      | .ok _ => { st := st2, events := m.2, result := .ok none }
  else
    { st := st, events := [],
      result := .error "Invalid download reference expected Hyperblobs" }

/-- protocol requests a download run sends to the remote peer. -/
inductive NodeAction where
  | fileRequest (peer path : String)
  | fileRelease (peer path : String)
deriving DecidableEq, Repr

/-- outcome of a full download run (node `downloadFileFromPeer` or
IndexManager `_relayDownload`). -/
structure DownloadRunResult where
  st : TransferState
  events : List ImLifeEvent
  actions : List NodeAction
  outcome : Except String Unit
deriving DecidableEq, Repr

/-- translation of the node method `downloadFileFromPeer`: FILE_REQUEST is
sent (its envelope outcome passed in as `requestResult`); the returned
reference must have `type = "hyperblobs"` with a string key and object id
(the latter two always hold of a `BlobRef`); then `IndexManager
.handleDownload` runs and FILE_RELEASE is sent.  No `unmarkTransfer` call
appears in this method. -/
def downloadFileFromPeer (st : TransferState) (peerId filePath : String)
    (now : Nat) (requestResult : Except String BlobRef)
    (createOk execOk : Except String Unit) : DownloadRunResult :=
  match requestResult with
  | .error e =>
    { st := st, events := [], actions := [.fileRequest peerId filePath],
      outcome := .error e }
  | .ok ref =>
    if ref.type = "hyperblobs" then
      let h := handleDownload st peerId filePath ref now createOk execOk
      match h.result with
      | .error e =>
        { st := h.st, events := h.events,
          actions := [.fileRequest peerId filePath], outcome := .error e }
      | .ok _ =>
        { st := h.st, events := h.events,
          actions := [.fileRequest peerId filePath, .fileRelease peerId filePath],
          outcome := .ok () }
    else
      { st := st, events := [], actions := [.fileRequest peerId filePath],
        outcome :=
          .error "Invalid FILE_REQUEST response expected hyperblobs ref" }

/-- translation of `IndexManager._relayDownload` (the archive-mode download
cycle, which the source comments say mirrors `downloadFileFromPeer`): after
`handleDownload` it calls `unmarkTransfer(fileKey, download, peerId)` and
then sends FILE_RELEASE.  An invalid reference is only warned about
(resolves cleanly). -/
def relayDownload (st : TransferState) (peerId fileKey : String) (now : Nat)
    (requestResult : Except String BlobRef)
    (createOk execOk : Except String Unit) : DownloadRunResult :=
  match requestResult with
  | .error e =>
    { st := st, events := [], actions := [.fileRequest peerId fileKey],
      outcome := .error e }
  | .ok ref =>
    if ref.type = "hyperblobs" then
      let h := handleDownload st peerId fileKey ref now createOk execOk
      match h.result with
      | .error e =>
        { st := h.st, events := h.events,
          actions := [.fileRequest peerId fileKey], outcome := .error e }
      | .ok _ =>
        let u := unmarkTransfer h.st fileKey .download peerId
        { st := u.1, events := h.events ++ u.2,
          actions := [.fileRequest peerId fileKey, .fileRelease peerId fileKey],
          outcome := .ok () }
    else
      { st := st, events := [], actions := [.fileRequest peerId fileKey],
        outcome := .ok () }

/-! ## Peer diff walk (src/src/IndexManager.js `#onPeerUpdate`,
`#handleQueuedDownload`) -/

/-- one side of a diff-stream entry: a bee node with its key and (possibly
null) value. -/
structure DiffNode where
  key : String
  value : Option FileMeta
deriving DecidableEq, Repr

/-- one entry of `bee.createDiffStream(prevSnap)`: `left` is the current
side, `right` the previous side. -/
structure DiffEntry where
  left : Option DiffNode
  right : Option DiffNode
deriving DecidableEq, Repr

/-- file events of the diff walk (IM_EVENT PEER_FILE_ADDED / CHANGED /
REMOVED), with the payload fields the source emits. -/
inductive PeerEvent where
  | added (filePath peerKey hash : String)
  | changed (filePath peerKey hash prevHash : String)
  | removed (filePath peerKey : String)
deriving DecidableEq, Repr

/-- result of walking the diff entries of one append: the events emitted,
the queued-download cycles triggered (by file path), the queued set after
the walk, and whether the loop ran to completion (`false` when a `return`
statement left `#onPeerUpdate` early). -/
structure WalkResult where
  events : List PeerEvent
  triggers : List String
  queuedAfter : List String
  completed : Bool
deriving DecidableEq, Repr

/-- translation of the `for await` loop body of `#onPeerUpdate`, threading
the `#queuedDownloads` set.  Per entry: the key side is `right ?? left`
(`continue` when both are missing); `curVal` is the left value, `prevVal`
the right value.  Both present: a `return` statement ends the walk when the
hashes are equal, otherwise PEER_FILE_CHANGED.  Only current present:
PEER_FILE_ADDED, and when the drive path is queued, `#handleQueuedDownload`
starts (deleting the path from the queue).  Only previous present:
PEER_FILE_REMOVED.  Neither value present: the update type is undetermined
and a `return` statement ends the walk. -/
def onPeerUpdateWalk (peerId : String) (queued : List String) :
    List DiffEntry → WalkResult
  | [] => { events := [], triggers := [], queuedAfter := queued, completed := true }
  | e :: rest =>
    match e.right.orElse (fun _ => e.left) with
    | none => onPeerUpdateWalk peerId queued rest
    | some keySide =>
      let filePath := keySide.key
      let curVal := e.left.bind (·.value)
      let prevVal := e.right.bind (·.value)
      match curVal, prevVal with
      | some cv, some pv =>
        if cv.hash = pv.hash then
          { events := [], triggers := [], queuedAfter := queued,
            completed := false }
        else
          let w := onPeerUpdateWalk peerId queued rest
          { w with
            events := PeerEvent.changed filePath peerId cv.hash pv.hash :: w.events }
      | some cv, none =>
        let dPath := asDrivePath filePath
        if queued.contains dPath then
          let w := onPeerUpdateWalk peerId (queued.filter fun q => ¬ q = dPath) rest
          { w with
            events := PeerEvent.added filePath peerId cv.hash :: w.events,
            triggers := filePath :: w.triggers }
        else
          let w := onPeerUpdateWalk peerId queued rest
          { w with events := PeerEvent.added filePath peerId cv.hash :: w.events }
      | none, some _ =>
        let w := onPeerUpdateWalk peerId queued rest
        { w with events := PeerEvent.removed filePath peerId :: w.events }
      | none, none =>
        { events := [], triggers := [], queuedAfter := queued, completed := false }

/-- read `_peerUpdates.get(peerId)`. -/
def getVersion (pv : List (String × Nat)) (peer : String) : Option Nat :=
  (pv.find? fun e => e.1 = peer).map (·.2)

/-- write `_peerUpdates.set(peerId, v)`. -/
def setVersion (pv : List (String × Nat)) (peer : String) (v : Nat) :
    List (String × Nat) :=
  (peer, v) :: pv.filter fun e => ¬ e.1 = peer

/-- overall result of `#onPeerUpdate`. -/
structure PeerUpdateResult where
  peerVersions : List (String × Nat)
  events : List PeerEvent
  triggers : List String
  queuedAfter : List String
deriving DecidableEq, Repr

/-- translation of `IndexManager#onPeerUpdate`: with the current version
equal to the stored one (default 0) nothing happens; otherwise the diff of
the current bee against the snapshot at the previous version is walked, and
the final statement `_peerUpdates.set(peerId, curUpdate)` runs only if the
walk ran to completion (an early `return` skips it). -/
def onPeerUpdate (pv : List (String × Nat)) (queued : List String)
    (peerId : String) (curVersion : Nat) (diff : List DiffEntry) :
    PeerUpdateResult :=
  let prevUpdate := (getVersion pv peerId).getD 0
  if curVersion = prevUpdate then
    { peerVersions := pv, events := [], triggers := [], queuedAfter := queued }
  else
    let w := onPeerUpdateWalk peerId queued diff
    { peerVersions :=
        if w.completed then setVersion pv peerId curVersion else pv,
      events := w.events, triggers := w.triggers, queuedAfter := w.queuedAfter }

/-! ## Queued downloads and save data (IndexManager.queueDownload, node
`#buildSaveData` / `#emitSaveDataUpdate`, joinNetwork, relay toggles) -/

/-- translation of the set mutation of `IndexManager.queueDownload`: insert
the drive path unless already queued (JS Set keeps insertion order). -/
def queueDownloadSet (queued : List String) (filePath : String) : List String :=
  let dPath := asDrivePath filePath
  if queued.contains dPath then queued else queued ++ [dPath]

/-- the node state the save-data-affecting mutations touch.  The immutable
boot configuration (corestore path, watch path, index name, seed, log
options, poll options) is carried unchanged into every save-data value and
is omitted here. -/
structure NodeState where
  opened : Bool
  networkKey : String
  relay : Bool
  queued : List String
deriving DecidableEq, Repr

/-- translation of `#buildUnfinishedDownloads`.  The in-progress loop
iterates `Object.entries(this.inProgressDownloads)`, and that getter spreads
`this.#im.inProgressDownloads` — a property the IndexManager does not
define — so it sees an empty object and contributes nothing.  The queued
loop iterates `this.#im.queuedDownloads.keys()`, and since `queuedDownloads`
is an Array, `keys()` yields the array indices; each index is appended. -/
def buildUnfinishedDownloads (st : NodeState) : List Nat :=
  List.range st.queued.length

/-- the mutable part of the save-data object `#buildSaveData` returns. -/
structure SaveData where
  networkKey : String
  relay : Bool
  queuedDownloads : List Nat
deriving DecidableEq, Repr

/-- translation of `#buildSaveData`, restricted to the mutable fields. -/
def buildSaveData (st : NodeState) : SaveData :=
  { networkKey := st.networkKey, relay := st.relay,
    queuedDownloads := buildUnfinishedDownloads st }

/-- events the node emits that carry save data. -/
inductive NodeEvent where
  | saveDataUpdate (sd : SaveData)
deriving DecidableEq, Repr

/-- translation of `#emitSaveDataUpdate`: a no-op while the node is not
opened, otherwise one SAVE_DATA_UPDATE with the current save data. -/
def emitSaveDataUpdate (st : NodeState) : List NodeEvent :=
  if st.opened then [.saveDataUpdate (buildSaveData st)] else []

/-- translation of `joinNetwork`: an explicit key replaces the stored
network key; the discovery join and flush have no effect on this state; one
`#emitSaveDataUpdate` follows. -/
def joinNetwork (st : NodeState) (key : Option String) : NodeState × List NodeEvent :=
  let st1 :=
    match key with
    | some k => { st with networkKey := k }
    | none => st
  (st1, emitSaveDataUpdate st1)

/-- translation of `activateRelay`. -/
def activateRelay (st : NodeState) : NodeState × List NodeEvent :=
  let st1 := { st with relay := true }
  (st1, emitSaveDataUpdate st1)

/-- translation of `deactivateRelay`. -/
def deactivateRelay (st : NodeState) : NodeState × List NodeEvent :=
  let st1 := { st with relay := false }
  (st1, emitSaveDataUpdate st1)

/-- translation of `IndexManager.queueDownload` at node level: it throws
unless the manager is opened, warns and returns on a duplicate, and adds
the drive path to the queued set.  No event of any kind is emitted. -/
def queueDownload (st : NodeState) (filePath : String) :
    Except String (NodeState × List NodeEvent) :=
  if st.opened then
    .ok ({ st with queued := queueDownloadSet st.queued filePath }, [])
  else .error "IndexManager is not opened yet."

/-! ## Theorems -/

/-- a string extended with a leading slash starts with a slash. -/
theorem jsStartsWithSlash_slash_append (s : String) :
    jsStartsWithSlash ("/" ++ s) = true := by
  simp [jsStartsWithSlash, String.data_append]

/-- inserting a path into the queued set makes its drive path a member. -/
theorem queueDownloadSet_mem (q : List String) (p : String) :
    asDrivePath p ∈ queueDownloadSet q p := by
  unfold queueDownloadSet
  by_cases h : asDrivePath p ∈ q <;> simp [h]

/-- membership restated through `List.contains`. -/
theorem queueDownloadSet_contains (q : List String) (p : String) :
    (queueDownloadSet q p).contains (asDrivePath p) = true := by
  simp [queueDownloadSet_mem q p]

/-- Claim C10: `asDrivePath` is normalizing and idempotent — its result
always starts with a slash and applying it twice equals applying it once;
a path without a leading slash and the same path with one map to the same
key; consequently a `queueDownload` insertion and the queued check of a
later peer-file-added diff entry for the same path address the same queued
entry (the walk triggers the queued download). -/
theorem asDrivePath_normalizing (s p : String) (q : List String) :
    jsStartsWithSlash (asDrivePath s) = true ∧
    asDrivePath (asDrivePath s) = asDrivePath s ∧
    (jsStartsWithSlash s = false → asDrivePath ("/" ++ s) = asDrivePath s) ∧
    (queueDownloadSet q p).contains (asDrivePath p) = true ∧
    (∀ peerId cv,
      (onPeerUpdateWalk peerId (queueDownloadSet q p)
        [{ left := some { key := p, value := some cv }, right := none }]).triggers
        = [p]) := by
  refine ⟨?_, ?_, ?_, queueDownloadSet_contains q p, ?_⟩
  · unfold asDrivePath
    by_cases h : jsStartsWithSlash s
    · simp [h]
    · simp [h, jsStartsWithSlash_slash_append]
  · unfold asDrivePath
    by_cases h : jsStartsWithSlash s
    · simp [h]
    · simp [h, jsStartsWithSlash_slash_append]
  · intro h
    unfold asDrivePath
    simp [h, jsStartsWithSlash_slash_append]
  · intro peerId cv
    simp [onPeerUpdateWalk, Option.orElse, queueDownloadSet_mem q p]

/-- Claim C10 witness. -/
theorem asDrivePath_normalizing_witness :
    jsStartsWithSlash (asDrivePath "a/b.txt") = true ∧
    asDrivePath (asDrivePath "a/b.txt") = asDrivePath "a/b.txt" ∧
    (jsStartsWithSlash "a/b.txt" = false →
      asDrivePath ("/" ++ "a/b.txt") = asDrivePath "a/b.txt") ∧
    (queueDownloadSet [] "a/b.txt").contains (asDrivePath "a/b.txt") = true ∧
    (∀ peerId cv,
      (onPeerUpdateWalk peerId (queueDownloadSet [] "a/b.txt")
        [{ left := some { key := "a/b.txt", value := some cv }, right := none }]).triggers
        = ["a/b.txt"]) :=
  asDrivePath_normalizing "a/b.txt" "a/b.txt" []

/-- Claim C6: on a cached path, when size and mtime both equal the cached
record the file is not rehashed, nothing is written and no event fires;
otherwise the file is rehashed and the new record written, and FILE_CHANGED
fires exactly when the new hash differs from the cached hash. -/
theorem updateFile_change_detection (c : FileMeta) (p : String)
    (stat : FileStat) (newHash : String) :
    (c.size = stat.size ∧ c.modified = stat.mtimeMs →
      updateFile false (some c) p stat newHash =
        { hashed := false, put := none, events := [] }) ∧
    (¬ (c.size = stat.size ∧ c.modified = stat.mtimeMs) →
      (updateFile false (some c) p stat newHash).hashed = true ∧
      (updateFile false (some c) p stat newHash).put =
        some { path := p, size := stat.size,
               modified := stat.mtimeMs, hash := newHash } ∧
      ((updateFile false (some c) p stat newHash).events = [] ↔
        newHash = c.hash) ∧
      (newHash ≠ c.hash →
        (updateFile false (some c) p stat newHash).events =
          [LfiEvent.fileChanged p c.hash newHash])) := by
  constructor
  · intro h
    simp [updateFile, h]
  · intro h
    by_cases hh : newHash = c.hash <;> simp [updateFile, h, hh]

/-- Claim C6 witness. -/
theorem updateFile_change_detection_witness :
    (updateFile false (some { path := "a", size := 1, modified := 2, hash := "h" })
      "a" { size := 1, mtimeMs := 3 } "h2").events =
      [LfiEvent.fileChanged "a" "h" "h2"] :=
  ((updateFile_change_detection { path := "a", size := 1, modified := 2, hash := "h" }
      "a" { size := 1, mtimeMs := 3 } "h2").2 (by decide)).2.2.2 (by decide)

/-- Claim C8: when the write stream closes, the download completes exactly
when the number of bytes written equals the declared blob size
`id.byteLength`; a differing count fails with the incomplete-download
error. -/
theorem executeDownload_size_check (chunks : List Nat) (id : BlobId) :
    (executeDownloadOnClose chunks id =
        .completed (downloadedBytes chunks) ↔
      downloadedBytes chunks = id.byteLength) ∧
    (downloadedBytes chunks ≠ id.byteLength →
      executeDownloadOnClose chunks id =
        .incomplete (downloadedBytes chunks) id.byteLength) := by
  constructor
  · unfold executeDownloadOnClose
    by_cases h : downloadedBytes chunks = id.byteLength <;> simp [h]
  · intro h
    simp [executeDownloadOnClose, h]

/-- Claim C8 witness. -/
theorem executeDownload_size_check_witness :
    executeDownloadOnClose [2, 3]
        { byteOffset := 0, blockOffset := 0, blockLength := 1, byteLength := 9 } =
      .incomplete (downloadedBytes [2, 3]) 9 :=
  (executeDownload_size_check [2, 3]
      { byteOffset := 0, blockOffset := 0, blockLength := 1, byteLength := 9 }).2
    (by decide)

/-- Claim C5: a FILE_REQUEST for a locally indexed path is answered with
status success and data exactly the hyperblobs reference (type, hex core
key, blob id); a path absent from the local index is answered with status
error (file not found) and the data is never a blob reference. -/
theorem onFileRequest_envelope (localIndex : String → Option FileMeta)
    (coreKeyHex : String) (blobId : BlobId) (p : String) (hp : p ≠ "") :
    (∀ m, localIndex p = some m →
      onFileRequest localIndex coreKeyHex blobId (some p) =
        ({ status := SUCCESS,
           data := .blob { type := "hyperblobs", key := coreKeyHex, id := blobId } },
         true)) ∧
    (localIndex p = none →
      (onFileRequest localIndex coreKeyHex blobId (some p)).1.status = ERROR ∧
      (onFileRequest localIndex coreKeyHex blobId (some p)).1.data =
        .text ("Error handling file request: " ++
          ("File not found in local index: " ++ p)) ∧
      ∀ r, (onFileRequest localIndex coreKeyHex blobId (some p)).1.data ≠
        RespData.blob r) := by
  constructor
  · intro m hm
    simp [onFileRequest, hp, createUploadBlob, hm]
  · intro hm
    refine ⟨?_, ?_, ?_⟩ <;>
      simp [onFileRequest, hp, createUploadBlob, hm]

/-- Claim C5 witness. -/
theorem onFileRequest_envelope_witness :
    onFileRequest
        (fun q => if q = "a.txt" then
          some { path := "a.txt", size := 1, modified := 1, hash := "h" } else none)
        "cafe" { byteOffset := 0, blockOffset := 0, blockLength := 1, byteLength := 1 }
        (some "a.txt") =
      ({ status := SUCCESS,
         data :=
          .blob
            { type := "hyperblobs", key := "cafe",
              id := { byteOffset := 0, blockOffset := 0, blockLength := 1, byteLength := 1 } } },
       true) :=
  (onFileRequest_envelope
      (fun q => if q = "a.txt" then
        some { path := "a.txt", size := 1, modified := 1, hash := "h" } else none)
      "cafe" { byteOffset := 0, blockOffset := 0, blockLength := 1, byteLength := 1 }
      "a.txt" (by decide)).1
    { path := "a.txt", size := 1, modified := 1, hash := "h" } (by decide)

/-- Claim C9: with a hyperblobs reference, `handleDownload` never resolves
`true` and never rejects; a failing create/stream step is caught and it
resolves `false`, and on success it resolves `undefined`; consequently
`downloadFileFromPeer` still sends FILE_RELEASE and resolves cleanly even
when the byte transfer itself failed. -/
theorem handleDownload_resolution (st : TransferState) (peer path : String)
    (ref : BlobRef) (now : Nat) (createOk execOk : Except String Unit)
    (h : ref.type = "hyperblobs") :
    (handleDownload st peer path ref now createOk execOk).result ≠
      .ok (some true) ∧
    (∀ e, (handleDownload st peer path ref now createOk execOk).result ≠
      .error e) ∧
    (createOk = .ok () → execOk = .ok () →
      (handleDownload st peer path ref now createOk execOk).result = .ok none) ∧
    (∀ msg, createOk = .error msg →
      (handleDownload st peer path ref now createOk execOk).result =
        .ok (some false)) ∧
    (∀ msg, execOk = .error msg →
      (handleDownload st peer path ref now createOk execOk).result =
        .ok (some false)) ∧
    (downloadFileFromPeer st peer path now (.ok ref) createOk execOk).actions =
      [.fileRequest peer path, .fileRelease peer path] ∧
    (downloadFileFromPeer st peer path now (.ok ref) createOk execOk).outcome =
      .ok () := by
  cases createOk <;> cases execOk <;>
    simp [handleDownload, downloadFileFromPeer, h]

/-- Claim C9 witness. -/
theorem handleDownload_resolution_witness :
    (handleDownload { inProgress := [], uploads := [], downloads := [] }
        "peerA" "a.txt"
        { type := "hyperblobs", key := "cafe",
          id :=
            { byteOffset := 0, blockOffset := 0, blockLength := 1, byteLength := 1 } }
        0 (.ok ()) (.error "stream reset")).result = .ok (some false) :=
  ((handleDownload_resolution { inProgress := [], uploads := [], downloads := [] }
      "peerA" "a.txt"
      { type := "hyperblobs", key := "cafe",
        id :=
          { byteOffset := 0, blockOffset := 0, blockLength := 1, byteLength := 1 } }
      0 (.ok ()) (.error "stream reset") (by decide)).2.2.2.2.1
    "stream reset" (by decide))

/-- a freshly set hook is found by lookup. -/
theorem lookupHook_setHook_self (m : HookMap) (t : String) (id : Nat) :
    lookupHook (setHook m t id) t = some id := by
  simp [lookupHook, setHook]

/-- a deleted hook is no longer found by lookup. -/
theorem lookupHook_deleteHook_self (m : HookMap) (t : String) :
    lookupHook (deleteHook m t) t = none := by
  simp only [lookupHook, deleteHook]
  cases hfind : List.find? (fun e => decide (e.1 = t))
      (List.filter (fun e => decide ¬ e.1 = t) m) with
  | none => simp
  | some a =>
    have hmem := List.mem_of_find?_eq_some hfind
    have hp := List.find?_some hfind
    have hne := (List.mem_filter.mp hmem).2
    simp at hp hne
    exact absurd hp hne

/-- Claim C3: after `listenOnce(t, f)`, the first MESSAGE of type `t`
invokes `f` exactly once on its payload and is answered success with the
result of `f` as data; the once-hook is removed before the invocation and
takes precedence over a regular `listen` hook; a second MESSAGE of type `t`
with no regular hook registered is answered UNKNOWN_MESSAGE_TYPE with no
handler invocation. -/
theorem listenOnce_message_spec (interp : Nat → String → Except String String)
    (h : Hooks) (t x y r : String) (f : Nat)
    (hf : interp f x = .ok r) (hreg : lookupHook h.regular t = none) :
    (onMessage interp (listenOnce h t f) t x).calls = [(f, x)] ∧
    (onMessage interp (listenOnce h t f) t x).response =
      { status := SUCCESS, data := .text r } ∧
    lookupHook (onMessage interp (listenOnce h t f) t x).hooks.once t = none ∧
    (onMessage interp (onMessage interp (listenOnce h t f) t x).hooks t y).response.status =
      UNKNOWN_MESSAGE_TYPE ∧
    (onMessage interp (onMessage interp (listenOnce h t f) t x).hooks t y).calls = [] ∧
    (∀ g, (onMessage interp (listen (listenOnce h t f) t g) t x).calls = [(f, x)]) := by
  have h1 : lookupHook (setHook h.once t f) t = some f :=
    lookupHook_setHook_self h.once t f
  have h2 : lookupHook (deleteHook (setHook h.once t f) t) t = none :=
    lookupHook_deleteHook_self (setHook h.once t f) t
  refine ⟨?_, ?_, ?_, ?_, ?_, ?_⟩
  · simp [onMessage, listenOnce, h1, hf]
  · simp [onMessage, listenOnce, h1, hf]
  · simp [onMessage, listenOnce, h1, hf, h2]
  · simp [onMessage, listenOnce, h1, hf, h2, hreg]
  · simp [onMessage, listenOnce, h1, hf, h2, hreg]
  · intro g
    simp [onMessage, listen, listenOnce, h1, hf]

/-- Claim C3 witness. -/
theorem listenOnce_message_spec_witness :
    (onMessage (fun _ p => .ok ("echo " ++ p))
        (listenOnce { once := [], regular := [] } "echo" 7) "echo" "x").calls =
      [(7, "x")] ∧
    (onMessage (fun _ p => .ok ("echo " ++ p))
      (onMessage (fun _ p => .ok ("echo " ++ p))
        (listenOnce { once := [], regular := [] } "echo" 7) "echo" "x").hooks
      "echo" "y").response.status = UNKNOWN_MESSAGE_TYPE :=
  have h := listenOnce_message_spec (fun _ p => .ok ("echo " ++ p))
    { once := [], regular := [] } "echo" "x" "y" "echo x" 7 (by decide) (by decide)
  ⟨h.1, h.2.2.2.1⟩

/-- Claim C1 (evaluation of the code at the failing input): in a diff walk
whose first entry has both sides present with equal hashes, the `return`
statement in the equal-hash branch ends the whole walk — the second entry,
a plain addition, emits no PEER_FILE_ADDED, and the stored peer version
stays at its previous value instead of advancing to the current head. -/
theorem onPeerUpdate_equal_hash_aborts_walk :
    onPeerUpdate [("p", 1)] [] "p" 3
      [{ left := some { key := "a.txt", value := some ⟨"a.txt", 1, 1, "h"⟩ },
         right := some { key := "a.txt", value := some ⟨"a.txt", 1, 2, "h"⟩ } },
       { left := some { key := "b.txt", value := some ⟨"b.txt", 1, 1, "g"⟩ },
         right := none }] =
      { peerVersions := [("p", 1)], events := [], triggers := [],
        queuedAfter := [] } := by decide

/-- Claim C2 (evaluation of the code at the failing input): a fully
successful `downloadFileFromPeer` run resolves cleanly but leaves both the
in-progress download entry and the downloads-map entry for the path in
place, so the path is still busy afterwards; the mirrored `_relayDownload`
cycle on the same input unmarks the transfer and clears both. -/
theorem downloadFileFromPeer_leaves_transfer_entry :
    (downloadFileFromPeer ⟨[], [], []⟩ "peerA" "a.txt" 0
        (.ok ⟨"hyperblobs", "cafe", ⟨0, 0, 1, 1⟩⟩) (.ok ()) (.ok ())).outcome =
      .ok () ∧
    (downloadFileFromPeer ⟨[], [], []⟩ "peerA" "a.txt" 0
        (.ok ⟨"hyperblobs", "cafe", ⟨0, 0, 1, 1⟩⟩) (.ok ()) (.ok ())).st =
      { inProgress := [("/a.txt", [("peerA", ⟨.download, 0⟩)])],
        uploads := [], downloads := ["/a.txt"] } ∧
    hasActiveDownloads [("/a.txt", [("peerA", ⟨.download, 0⟩)])] "a.txt" = true ∧
    isBusy [] ["/a.txt"] "a.txt" = true ∧
    (relayDownload ⟨[], [], []⟩ "peerA" "a.txt" 0
        (.ok ⟨"hyperblobs", "cafe", ⟨0, 0, 1, 1⟩⟩) (.ok ()) (.ok ())).st =
      { inProgress := [], uploads := [], downloads := [] } ∧
    isBusy [] ([] : List String) "a.txt" = false := by decide

/-- no bee operation whose path differs from `p` changes the bee at `p`. -/
theorem applyBeeOps_untouched (ops : List BeeOp) (p : String)
    (h : ∀ op ∈ ops, beeOpPath op ≠ p) (m : String → Option FileMeta) :
    applyBeeOps m ops p = m p := by
  induction ops generalizing m with
  | nil => rfl
  | cons op rest ih =>
    have hop : beeOpPath op ≠ p := h op (List.mem_cons_self op rest)
    have hrest : ∀ o ∈ rest, beeOpPath o ≠ p :=
      fun o ho => h o (List.mem_cons_of_mem op ho)
    have step : applyBeeOp m op p = m p := by
      cases op with
      | put q v =>
        have : ¬ p = q := fun hpq => hop (by simpa [beeOpPath] using hpq.symm)
        simp [applyBeeOp, this]
      | del q =>
        have : ¬ p = q := fun hpq => hop (by simpa [beeOpPath] using hpq.symm)
        simp [applyBeeOp, this]
    calc applyBeeOps m (op :: rest) p
        = applyBeeOps (applyBeeOp m op) rest p := rfl
      _ = applyBeeOp m op p := ih hrest (applyBeeOp m op)
      _ = m p := step

/-- every operation a poll produces addresses a non-busy path. -/
theorem pollAndSync_ops_avoid_busy (u d : List String)
    (stored : List (String × FileMeta)) (disk : List DiskFile) (p : String)
    (h : isBusy u d p = true) :
    ∀ op ∈ pollAndSync u d stored disk, beeOpPath op ≠ p := by
  intro op hop
  unfold pollAndSync at hop
  rcases List.mem_append.mp hop with hdel | hput
  · obtain ⟨e, _, heq⟩ := List.mem_filterMap.mp hdel
    by_cases h1 : (lookupMeta (scanDirectory u d disk) e.1).isNone
    · by_cases h2 : isBusy u d e.1
      · simp [h1, h2] at heq
      · simp [h1, h2] at heq
        intro hpath
        rw [← heq] at hpath
        simp [beeOpPath] at hpath
        exact h2 (by rw [hpath]; exact h)
    · simp [h1] at heq
  · obtain ⟨e, he, heq⟩ := List.mem_filterMap.mp hput
    obtain ⟨f, _, hfe⟩ := List.mem_filterMap.mp he
    by_cases hb : isBusy u d f.path
    · simp [hb] at hfe
    · simp [hb] at hfe
      have he1 : e.1 = f.path := by rw [← hfe]
      have hpathne : e.1 ≠ p := by
        intro hp
        exact hb (by rw [← he1, hp]; exact h)
      intro hpath
      apply hpathne
      rw [← hpath]
      cases hlk : lookupMeta stored e.1 with
      | none => simp [hlk] at heq; rw [← heq]; rfl
      | some m0 =>
        by_cases hhash : m0.hash = e.2.hash
        · simp [hlk, hhash] at heq
        · simp [hlk, hhash] at heq; rw [← heq]; rfl

/-- Claim C7: during a poll of the watch directory, a busy path is never
hashed, and the index bee after the poll agrees with the stored map at that
path — the scan skips busy files and the deletion pass skips busy cached
paths, so a busy path's log record is unchanged by the scan. -/
theorem pollAndSync_busy_untouched (u d : List String)
    (stored : List (String × FileMeta)) (disk : List DiskFile) (p : String)
    (h : isBusy u d p = true) :
    beeAfterPoll u d stored disk p = lookupMeta stored p ∧
    p ∉ scannedHashedPaths u d disk := by
  constructor
  · exact applyBeeOps_untouched _ p
      (pollAndSync_ops_avoid_busy u d stored disk p h) _
  · intro hmem
    obtain ⟨f, _, hfe⟩ := List.mem_filterMap.mp hmem
    by_cases hb : isBusy u d f.path
    · simp [hb] at hfe
    · simp [hb] at hfe
      exact hb (by rw [hfe]; exact h)

/-- Claim C7 witness. -/
theorem pollAndSync_busy_untouched_witness :
    beeAfterPoll ["/a.txt"] [] [("a.txt", ⟨"a.txt", 1, 1, "h"⟩)]
        [⟨"a.txt", 5, 9, "h2"⟩] "a.txt" =
      lookupMeta [("a.txt", ⟨"a.txt", 1, 1, "h"⟩)] "a.txt" ∧
    "a.txt" ∉ scannedHashedPaths ["/a.txt"] [] [⟨"a.txt", 5, 9, "h2"⟩] :=
  pollAndSync_busy_untouched ["/a.txt"] [] [("a.txt", ⟨"a.txt", 1, 1, "h"⟩)]
    [⟨"a.txt", 5, 9, "h2"⟩] "a.txt" (by decide)

/-- Claim C4 counterexample: on an opened node, `queueDownload` changes the
save data (the queued set grows) yet emits no SAVE_DATA_UPDATE event, so
not every save-data-changing mutation emits exactly one. -/
theorem queueDownload_no_saveDataUpdate :
    queueDownload ⟨true, "k", false, []⟩ "x.txt" =
      .ok (⟨true, "k", false, ["/x.txt"]⟩, []) ∧
    buildSaveData ⟨true, "k", false, ["/x.txt"]⟩ ≠
      buildSaveData ⟨true, "k", false, []⟩ := by decide

/-- Claim C4 (amended): on an opened node, joining a network and toggling
relay mode each emit exactly one SAVE_DATA_UPDATE carrying the new save
data; queue changes (queueDownload) change the save data but emit no
SAVE_DATA_UPDATE at all. -/
theorem saveDataUpdate_emission (st : NodeState) (k p : String)
    (hopen : st.opened = true) :
    (joinNetwork st (some k)).2 =
      [NodeEvent.saveDataUpdate (buildSaveData (joinNetwork st (some k)).1)] ∧
    (joinNetwork st none).2 = [NodeEvent.saveDataUpdate (buildSaveData st)] ∧
    (activateRelay st).2 =
      [NodeEvent.saveDataUpdate (buildSaveData (activateRelay st).1)] ∧
    (deactivateRelay st).2 =
      [NodeEvent.saveDataUpdate (buildSaveData (deactivateRelay st).1)] ∧
    (∀ st1 evs, queueDownload st p = .ok (st1, evs) → evs = []) ∧
    (st.queued.contains (asDrivePath p) = false →
      ∃ st1, queueDownload st p = .ok (st1, []) ∧
        buildSaveData st1 ≠ buildSaveData st) := by
  refine ⟨?_, ?_, ?_, ?_, ?_, ?_⟩
  · simp [joinNetwork, emitSaveDataUpdate, hopen]
  · simp [joinNetwork, emitSaveDataUpdate, hopen]
  · simp [activateRelay, emitSaveDataUpdate, hopen]
  · simp [deactivateRelay, emitSaveDataUpdate, hopen]
  · intro st1 evs hq
    simp [queueDownload, hopen] at hq
    exact hq.2
  · intro hc
    have hc2 : ¬ asDrivePath p ∈ st.queued := by simpa using hc
    refine ⟨{ st with queued := st.queued ++ [asDrivePath p] }, ?_, ?_⟩
    · simp [queueDownload, hopen, queueDownloadSet, hc2]
    · intro heq
      have hlen := congrArg (fun sd => sd.queuedDownloads.length) heq
      simp [buildSaveData, buildUnfinishedDownloads] at hlen

/-- Claim C4 witness (amended claim at a concrete input). -/
theorem saveDataUpdate_emission_witness :
    (activateRelay ⟨true, "k", false, []⟩).2 =
      [NodeEvent.saveDataUpdate (buildSaveData (activateRelay ⟨true, "k", false, []⟩).1)] :=
  (saveDataUpdate_emission ⟨true, "k", false, []⟩ "n" "x.txt" (by decide)).2.2.1

end PearDriveCore
